import Mathlib

/-!
Verification development for the hierarchical workflow and deadline cascade
engine of the PM web portal.

The definitions below are a shallow embedding of the TypeScript source:

- `src/app/api/enhanced-workflows/route.ts` (workflow state machine: POST
  creation and PATCH approve / reject / submit, hierarchy chain helpers,
  user resolution),
- `src/app/api/dynamic-forms/templates/route.ts` (deadline cascade
  calculator and the PM visit lifecycle PATCH),
- `src/models/enhanced-workflow-request.ts` and `src/models/pm-visit.ts`
  (document shapes and schema defaults).

Modelling conventions:

- Instants (JS `Date`) are rationals counting milliseconds since the epoch.
  JS number arithmetic is binary floating point; every statement proved here
  only relies on sign and ordering facts that hold identically for floats
  and rationals on the inputs considered.
- Mongo documents become Lean structures; `ObjectId` values become `Nat`
  identifiers; a `findOne(query)` call becomes `List.find?` over an ambient
  list of documents, with the Mongo semantics that each field condition on
  an embedded array is matched independently.
- The route handlers are total functions from the request data and the
  ambient stores to a result that is either an error response (message and
  HTTP status code) or the updated / created documents.  An error response
  is returned before any database write, so an error result models an
  unchanged store.
- `requireRoles` and `authenticateRequest` live in `src/lib/auth`, which is
  not part of the provided sources; `requireRoles` is modelled from the
  spec (see its doc comment), and authentication is modelled by passing the
  acting user directly.
-/

/-- The six hierarchy roles.  The TypeScript source represents them as the
string literal union derived from `HIERARCHY_CHAIN`; the `name` function
below recovers the exact source strings. -/
inductive Role where
  | pmo
  | ceoNiti
  | stateAdvisor
  | stateYP
  | hod
  | divYP
deriving DecidableEq, BEq

/-- Source strings of the six roles, as stored in Mongo documents. -/
def Role.name : Role → String
  | .pmo => "PMO"
  | .ceoNiti => "CEO NITI"
  | .stateAdvisor => "State Advisor"
  | .stateYP => "State YP"
  | .hod => "State Division HOD"
  | .divYP => "Division YP"

/-- Embedding of `HIERARCHY_CHAIN`: PMO → CEO NITI → State Advisor →
State YP → State Division HOD → Division YP. -/
def HIERARCHY_CHAIN : List Role :=
  [Role.pmo, Role.ceoNiti, Role.stateAdvisor, Role.stateYP, Role.hod, Role.divYP]

/-- Embedding of `getNextRole`: the element after `currentRole` in the
chain, or none at the last position. -/
def getNextRole (currentRole : Role) : Option Role :=
  let currentIndex := HIERARCHY_CHAIN.indexOf currentRole
  if currentIndex < HIERARCHY_CHAIN.length - 1 then HIERARCHY_CHAIN[currentIndex + 1]?
  else none

/-- Embedding of `getPreviousRole`: the element before `currentRole` in the
chain, or none at the first position. -/
def getPreviousRole (currentRole : Role) : Option Role :=
  let currentIndex := HIERARCHY_CHAIN.indexOf currentRole
  if currentIndex > 0 then HIERARCHY_CHAIN[currentIndex - 1]?
  else none

/-- Milliseconds per day, the divisor `1000 * 3600 * 24` used by the
cascade calculator. -/
def msPerDay : ℚ := 86400000

/-- Embedding of `Math.max` on two numbers. -/
def mathMax (a b : ℚ) : ℚ := if a ≤ b then b else a

/-- Embedding of the `deadlineAllocations` table built inside
`calculateCascadeDeadlines`: for each role, days before the final deadline,
computed as `Math.max(floorDays, dayDiff * fraction)` with the table
PMO(0), CEO NITI(2, 0.2), State Advisor(5, 0.4), State YP(8, 0.6),
State Division HOD(12, 0.8), Division YP(15, 0.95).  `dayDiff` is the
signed day difference `(finalDeadline - visitDate) / msPerDay` computed by
the caller. -/
def deadlineAllocation (dayDiff : ℚ) : Role → ℚ
  | .pmo => 0
  | .ceoNiti => mathMax 2 (dayDiff * 0.2)
  | .stateAdvisor => mathMax 5 (dayDiff * 0.4)
  | .stateYP => mathMax 8 (dayDiff * 0.6)
  | .hod => mathMax 12 (dayDiff * 0.8)
  | .divYP => mathMax 15 (dayDiff * 0.95)

/-- One entry of the computed cascade, mirroring the objects returned by
`calculateCascadeDeadlines`. -/
structure CascadeEntry where
  role : Role
  deadline : ℚ
  status : String
deriving DecidableEq

/-- Embedding of `calculateCascadeDeadlines`: computes the signed
`dayDiff = (finalDeadline - visitDate) / msPerDay` and maps the fixed role
list to entries `deadline = finalDeadline - allocation * msPerDay` with
status `pending`. -/
def calculateCascadeDeadlines (visitDate finalDeadline : ℚ) : List CascadeEntry :=
  let dayDiff := (finalDeadline - visitDate) / msPerDay
  [Role.divYP, Role.hod, Role.stateYP, Role.stateAdvisor, Role.ceoNiti, Role.pmo].map
    (fun role =>
      { role := role
        deadline := finalDeadline - deadlineAllocation dayDiff role * msPerDay
        status := "pending" })

/-- The due instant the cascade computes for a given role. -/
def cascadeDue (visitDate finalDeadline : ℚ) (role : Role) : Option ℚ :=
  ((calculateCascadeDeadlines visitDate finalDeadline).find? (fun e => e.role == role)).map
    (fun e => e.deadline)

/-- One element of a user document's `roles` array: a role name with an
optional state and branch scope. -/
structure RoleEntry where
  role : String
  state : Option String := none
  branch : Option String := none
deriving DecidableEq

/-- A user document.  `uid` stands for the Mongo `ObjectId`. -/
structure User where
  uid : Nat
  email : Option String := none
  roles : List RoleEntry
deriving DecidableEq

/-- Embedding of `getUserHierarchyRole`: scans `HIERARCHY_CHAIN` from the
top and returns the first role whose name occurs among the roles the user
holds, so a user holding several hierarchy roles is classified by the
highest one. -/
def getUserHierarchyRole (user : User) : Option Role :=
  let userRoles := user.roles.map (fun r => r.role)
  HIERARCHY_CHAIN.find? (fun role => userRoles.contains role.name)

/-- Embedding of the Mongo query built by `findUserForRole`.  For `PMO` and
`CEO NITI` only the role name is required.  Otherwise the query has the
conditions `roles.role = role` and `roles.state = state`, and when a branch
is given and the role is `State Division HOD` or `Division YP` also
`roles.branch = branch`.  Mongo matches each condition on the embedded
`roles` array independently, so possibly against different array
elements. -/
def matchesRoleQuery (role : Role) (state : String) (branch : Option String) (u : User) : Bool :=
  if role == Role.pmo || role == Role.ceoNiti then
    u.roles.any (fun e => e.role == role.name)
  else
    u.roles.any (fun e => e.role == role.name) &&
    u.roles.any (fun e => e.state == some state) &&
    (match branch with
     | some b =>
       if role == Role.hod || role == Role.divYP then u.roles.any (fun e => e.branch == some b)
       else true
     | none => true)

/-- Embedding of `findUserForRole`: `User.findOne(query)` over the ambient
user collection, modelled as the first user in the list matching the
query. -/
def findUserForRole (db : List User) (role : Role) (state : String) (branch : Option String) :
    Option User :=
  db.find? (matchesRoleQuery role state branch)

/-- Targets subdocument of a workflow request (schema defaults are empty
arrays). -/
structure Targets where
  states : List String := []
  branches : List String := []
  domains : List String := []
  verticals : List String := []
deriving DecidableEq

/-- One entry of a workflow request's `history` array. -/
structure HistoryEntry where
  action : String
  userId : Nat
  userRole : Role
  timestamp : ℚ
  fromStage : Option Role
  toStage : Option Role
  notes : String
deriving DecidableEq

/-- One entry of a workflow request's `versionHistory` array.  The payload
is kept opaque as a string. -/
structure VersionEntry where
  version : Nat
  data : String
  submittedBy : Nat
  submittedAt : ℚ
  status : String
  notes : String
deriving DecidableEq

/-- An enhanced workflow request document, with the fields the routes read
or write.  `maxRollbackCount` has schema default 3. -/
structure Workflow where
  title : String
  infoNeed : String
  timeline : ℚ
  deadline : Option ℚ := none
  pmVisitId : Option Nat := none
  createdBy : Nat
  status : String
  targets : Targets
  currentAssigneeId : Option Nat
  currentStage : Role
  history : List HistoryEntry
  version : Nat
  versionHistory : List VersionEntry
  rollbackCount : Nat
  maxRollbackCount : Nat := 3
deriving DecidableEq

/-- The `updateData` object accumulated by the PATCH handler before the
single `findByIdAndUpdate` call: each field is either absent (document
field unchanged) or present with its new value.  `currentAssigneeId` can be
set to null, hence the nested option. -/
structure UpdateData where
  status : Option String := none
  deadline : Option ℚ := none
  currentAssigneeId : Option (Option Nat) := none
  currentStage : Option Role := none
  version : Option Nat := none
  rollbackCount : Option Nat := none
  pushVersionHistory : Option VersionEntry := none
deriving DecidableEq

/-- Embedding of `findByIdAndUpdate(id, updateData)` together with the
unconditional `$push` of the history entry: present fields overwrite, the
optional version entry and the history entry are appended. -/
def applyUpdate (wf : Workflow) (u : UpdateData) (entry : HistoryEntry) : Workflow :=
  { wf with
    status := u.status.getD wf.status
    deadline := match u.deadline with | some d => some d | none => wf.deadline
    currentAssigneeId := u.currentAssigneeId.getD wf.currentAssigneeId
    currentStage := u.currentStage.getD wf.currentStage
    version := u.version.getD wf.version
    rollbackCount := u.rollbackCount.getD wf.rollbackCount
    versionHistory :=
      wf.versionHistory ++ (match u.pushVersionHistory with | some e => [e] | none => [])
    history := wf.history ++ [entry] }

/-- JS truthiness helper for optional strings: `notes || fallback` treats
both a missing value and the empty string as falsy. -/
def jsOr (o : Option String) (fallback : String) : String :=
  match o with
  | some s => if s = "" then fallback else s
  | none => fallback

/-- A dynamic form template document, with the fields queried by the submit
action. -/
structure Template where
  state : String
  vertical : String
  isActive : Bool
deriving DecidableEq

/-- Result of the workflow PATCH handler: an early error response (message
and HTTP status), or the updated parent document together with the clone
documents created by the fan out branch (empty for all other branches). -/
inductive PatchResult where
  | error (message : String) (statusCode : Nat)
  | ok (updated : Workflow) (clones : List Workflow)
deriving DecidableEq

/-- Embedding of the clone document created inside the fan out branch of
the approve action: same content as the parent, targets narrowed to the
single branch, addressed to the resolved State Division HOD, fresh version
and rollback counters, history seeded with one `forwarded` entry noting the
branch. -/
def mkFanoutClone (wf : Workflow) (user : User) (userRole : Role) (now : ℚ) (b : String)
    (hod : User) : Workflow :=
  { title := wf.title
    infoNeed := wf.infoNeed
    timeline := wf.timeline
    deadline := wf.deadline
    pmVisitId := wf.pmVisitId
    createdBy := wf.createdBy
    status := "in-progress"
    targets :=
      { states := wf.targets.states
        branches := [b]
        domains := []
        verticals := wf.targets.verticals }
    currentAssigneeId := some hod.uid
    currentStage := Role.hod
    history :=
      [{ action := "forwarded"
         userId := user.uid
         userRole := userRole
         timestamp := now
         fromStage := some wf.currentStage
         toStage := some Role.hod
         notes := b }]
    version := 1
    versionHistory := []
    rollbackCount := 0
    maxRollbackCount := 3 }

/-- Embedding of the deadline tightening test at the start of the approve
case: only a State Advisor actor supplying a new deadline strictly earlier
than the current effective deadline (`workflow.deadline || workflow.timeline`)
gets it adopted into `updateData.deadline`. -/
def approveTighten (userRole : Role) (wf : Workflow) (newDeadline : Option ℚ) : Option ℚ :=
  if userRole = Role.stateAdvisor then
    match newDeadline with
    | some nd => if nd < wf.deadline.getD wf.timeline then some nd else none
    | none => none
  else none

/-- Embedding of the `approve` case of the PATCH switch. -/
def approveCase (db : List User) (now : ℚ) (user : User) (userRole : Role) (workflow : Workflow)
    (notes : Option String) (newDeadline : Option ℚ) (baseEntry : HistoryEntry) : PatchResult :=
  let tightened := approveTighten userRole workflow newDeadline
  let entryNotes := match tightened with
    | some _ => (jsOr notes "").trim
    | none => jsOr notes ""
  match getNextRole userRole with
  | none =>
    PatchResult.ok
      (applyUpdate workflow
        { deadline := tightened, status := some "approved", currentAssigneeId := some none }
        { baseEntry with toStage := none, notes := entryNotes })
      []
  | some nextRole =>
    let targetState := workflow.targets.states.headD ""
    let targetBranch := workflow.targets.branches.head?
    if userRole = Role.stateYP ∧ 1 < workflow.targets.branches.length then
      let clones := workflow.targets.branches.filterMap (fun b =>
        (findUserForRole db Role.hod targetState (some b)).map
          (fun hod => mkFanoutClone workflow user userRole now b hod))
      PatchResult.ok
        (applyUpdate workflow
          { deadline := tightened
            currentAssigneeId := some none
            currentStage := some workflow.currentStage }
          { baseEntry with toStage := some workflow.currentStage, notes := entryNotes })
        clones
    else
      match findUserForRole db nextRole targetState targetBranch with
      | some nextUser =>
        PatchResult.ok
          (applyUpdate workflow
            { deadline := tightened
              currentAssigneeId := some (some nextUser.uid)
              currentStage := some nextRole }
            { baseEntry with toStage := some nextRole, notes := entryNotes })
          []
      | none =>
        PatchResult.ok
          (applyUpdate workflow
            { deadline := tightened, status := some "approved", currentAssigneeId := some none }
            { baseEntry with toStage := none, notes := entryNotes })
          []

/-- Embedding of the `reject` case of the PATCH switch.  The previous role
is computed from the acting user's hierarchy role; a missing previous role
or an unresolved previous user is an error response returned before any
write. -/
def rejectCase (db : List User) (userRole : Role) (workflow : Workflow)
    (baseEntry : HistoryEntry) : PatchResult :=
  match getPreviousRole userRole with
  | none => PatchResult.error "Cannot reject at this level" 400
  | some prevRole =>
    let targetState := workflow.targets.states.headD ""
    let targetBranch := workflow.targets.branches.head?
    match findUserForRole db prevRole targetState targetBranch with
    | some prevUser =>
      PatchResult.ok
        (applyUpdate workflow
          { currentAssigneeId := some (some prevUser.uid)
            currentStage := some prevRole
            rollbackCount := some (workflow.rollbackCount + 1) }
          { baseEntry with toStage := some prevRole })
        []
    | none => PatchResult.error "Previous user not found" 400

/-- Embedding of the `submit` case of the PATCH switch: only Division YP,
with a payload, and with an active template for the first target state and
vertical; on success appends a version entry with version incremented by
one and bumps the document version. -/
def submitCase (templates : List Template) (now : ℚ) (user : User) (userRole : Role)
    (workflow : Workflow) (notes : Option String) (data : Option String)
    (baseEntry : HistoryEntry) : PatchResult :=
  if userRole ≠ Role.divYP then PatchResult.error "Only Division YP can submit data" 403
  else
    match data with
    | none => PatchResult.error "Submission data required" 400
    | some d =>
      let state := workflow.targets.states.headD ""
      let vertical := workflow.targets.verticals.head?
      match templates.find? (fun t => t.state == state && some t.vertical == vertical && t.isActive) with
      | none => PatchResult.error "No active template for state and vertical" 400
      | some _ =>
        let newVersion : VersionEntry :=
          { version := workflow.version + 1
            data := d
            submittedBy := user.uid
            submittedAt := now
            status := "submitted"
            notes := jsOr notes "Initial submission" }
        PatchResult.ok
          (applyUpdate workflow
            { version := some (workflow.version + 1), pushVersionHistory := some newVersion }
            { baseEntry with toStage := some workflow.currentStage })
          []

/-- Embedding of the PATCH handler of `enhanced-workflows/route.ts` from
the point where the workflow document has been loaded: the current
assignee check, the hierarchy role lookup, the history entry skeleton, and
the action switch.  There is no check of the document status and no check
of the rollback counter anywhere on this path. -/
def patchWorkflow (db : List User) (templates : List Template) (now : ℚ) (user : User)
    (workflow : Workflow) (action : String) (notes : Option String) (data : Option String)
    (newDeadline : Option ℚ) : PatchResult :=
  if workflow.currentAssigneeId ≠ some user.uid then PatchResult.error "Not current assignee" 403
  else
    match getUserHierarchyRole user with
    | none => PatchResult.error "Invalid user role" 403
    | some userRole =>
      let baseEntry : HistoryEntry :=
        { action := action
          userId := user.uid
          userRole := userRole
          timestamp := now
          fromStage := some workflow.currentStage
          toStage := none
          notes := jsOr notes "" }
      if action = "approve" then
        approveCase db now user userRole workflow notes newDeadline baseEntry
      else if action = "reject" then
        rejectCase db userRole workflow baseEntry
      else if action = "submit" then
        submitCase templates now user userRole workflow notes data baseEntry
      else PatchResult.error "Invalid action" 400

/-- Result of the workflow POST handler. -/
inductive CreateResult where
  | error (message : String) (statusCode : Nat)
  | ok (created : Workflow)
deriving DecidableEq

/-- Modelled from the spec: `requireRoles` is imported from `src/lib/auth`,
which is not among the provided sources.  The spec limits authorization to
role membership checks, so the function is modelled as: the user holds at
least one of the allowed role names. -/
def requireRoles (user : User) (allowed : List String) : Bool :=
  user.roles.any (fun e => allowed.contains e.role)

/-- Embedding of the POST handler of `enhanced-workflows/route.ts`: the
authorization gate, the body validation (title 5 to 200 characters, info
need 10 to 1000 characters, at least one target state, future timeline,
existing PM visit when one is linked), then the starting stage computation:
the creating user's highest hierarchy role originates the request, and if
the next role down the chain resolves to a user for the first target state
and branch the request starts in progress at that role, else it stays open
at the originating role with no assignee. -/
def postCreateWorkflow (db : List User) (visitIds : List Nat) (now : ℚ) (user : User)
    (title infoNeed : String) (timeline : ℚ) (pmVisitId : Option Nat) (targets : Targets) :
    CreateResult :=
  if ¬ requireRoles user ["PMO", "CEO NITI", "State Advisor"] then
    CreateResult.error "Forbidden" 403
  else if ¬ (5 ≤ title.length ∧ title.length ≤ 200 ∧
             10 ≤ infoNeed.length ∧ infoNeed.length ≤ 1000 ∧
             1 ≤ targets.states.length) then
    CreateResult.error "Invalid request body" 400
  else if timeline ≤ now then
    CreateResult.error "Timeline must be in the future" 400
  else if ¬ (∀ v ∈ pmVisitId, v ∈ visitIds) then
    CreateResult.error "PM Visit not found" 404
  else
    match getUserHierarchyRole user with
    | none => CreateResult.error "Invalid user role for workflow creation" 403
    | some userRole =>
      let targetState := targets.states.headD ""
      let targetBranch := targets.branches.head?
      let assignment : Option Nat × Role :=
        match getNextRole userRole with
        | some nextRole =>
          match findUserForRole db nextRole targetState targetBranch with
          | some nextUser => (some nextUser.uid, nextRole)
          | none => (none, userRole)
        | none => (none, userRole)
      let currentAssigneeId := assignment.1
      let currentStage := assignment.2
      CreateResult.ok
        { title := title
          infoNeed := infoNeed
          timeline := timeline
          deadline := none
          pmVisitId := pmVisitId
          createdBy := user.uid
          status := if currentAssigneeId.isSome then "in-progress" else "open"
          targets := targets
          currentAssigneeId := currentAssigneeId
          currentStage := currentStage
          history :=
            [{ action := "created"
               userId := user.uid
               userRole := userRole
               timestamp := now
               fromStage := none
               toStage := some currentStage
               notes := "Workflow created by " ++ userRole.name }]
          version := 1
          versionHistory := []
          rollbackCount := 0
          maxRollbackCount := 3 }

/-- The data of one submit call made against a request: the clock value,
the acting user, and the optional notes and payload of the body. -/
structure SubmitCall where
  now : ℚ
  user : User
  notes : Option String
  data : Option String
deriving DecidableEq

/-- Runs a sequence of submit calls through the PATCH handler, requiring
every call to succeed; any error response aborts the run. -/
def runSubmits (db : List User) (templates : List Template) :
    Workflow → List SubmitCall → Option Workflow
  | wf, [] => some wf
  | wf, c :: rest =>
    match patchWorkflow db templates c.now c.user wf "submit" c.notes c.data none with
    | PatchResult.ok updated _ => runSubmits db templates updated rest
    | PatchResult.error _ _ => none

/-- One entry of a PM visit's `deadlines` array. -/
structure VisitDeadline where
  role : Role
  deadline : ℚ
  status : String
  assignedUserId : Option Nat := none
deriving DecidableEq

/-- One entry of a PM visit's `auditLog` array.  The role recorded by the
PATCH handler is the first of the acting user's role names, which can be
absent for a user with no roles. -/
structure AuditEntry where
  action : String
  userId : Nat
  role : Option String
  timestamp : ℚ
  notes : String
deriving DecidableEq

/-- A PM visit document, with the fields the lifecycle PATCH reads or
writes. -/
structure PMVisit where
  title : String
  purpose : String
  visitDate : ℚ
  finalDeadline : ℚ
  state : String
  verticals : List String
  status : String
  deadlines : List VisitDeadline
  createdBy : Nat
  auditLog : List AuditEntry
deriving DecidableEq

/-- Result of the PM visit PATCH handler. -/
inductive VisitPatchResult where
  | error (message : String) (statusCode : Nat)
  | ok (updated : PMVisit)
deriving DecidableEq

/-- Embedding of the PATCH handler of `dynamic-forms/templates/route.ts`
from the point where the visit document has been loaded: the role gates
for activate and complete, then the status gated transitions, each error
returned before any write and each success writing the new status and
appending one audit entry. -/
def visitPatch (user : User) (now : ℚ) (visit : PMVisit) (action : String)
    (notes : Option String) : VisitPatchResult :=
  let userRoles := user.roles.map (fun r => r.role)
  if action = "activate" ∧ ¬ userRoles.contains "PMO" then
    VisitPatchResult.error "Only PMO can activate visits" 403
  else if action = "complete" ∧ ¬ userRoles.contains "PMO" then
    VisitPatchResult.error "Only PMO can complete visits" 403
  else
    let baseEntry : AuditEntry :=
      { action := action
        userId := user.uid
        role := userRoles.head?
        timestamp := now
        notes := jsOr notes "" }
    if action = "activate" then
      if visit.status ≠ "draft" then VisitPatchResult.error "Can only activate draft visits" 400
      else
        VisitPatchResult.ok
          { visit with
            status := "active"
            auditLog := visit.auditLog ++
              [{ baseEntry with notes := "PM Visit activated for " ++ visit.state }] }
    else if action = "complete" then
      if visit.status ≠ "active" then VisitPatchResult.error "Can only complete active visits" 400
      else
        VisitPatchResult.ok
          { visit with
            status := "completed"
            auditLog := visit.auditLog ++
              [{ baseEntry with notes := "PM Visit completed for " ++ visit.state }] }
    else if action = "cancel" then
      if visit.status = "completed" then
        VisitPatchResult.error "Cannot cancel completed visits" 400
      else
        VisitPatchResult.ok
          { visit with
            status := "cancelled"
            auditLog := visit.auditLog ++
              [{ baseEntry with notes := "PM Visit cancelled for " ++ visit.state }] }
    else VisitPatchResult.error "Invalid action" 400

/-- The floor days of the cascade allocation table, one value per role. -/
def floorDays : Role → ℚ
  | .pmo => 0
  | .ceoNiti => 2
  | .stateAdvisor => 5
  | .stateYP => 8
  | .hod => 12
  | .divYP => 15

/-- Projection used to observe the rollback counter of a successful PATCH
result. -/
def PatchResult.updatedRollbackCount : PatchResult → Option Nat
  | PatchResult.ok u _ => some u.rollbackCount
  | PatchResult.error _ _ => none

/-- Instant 2025-06-05T00:00:00Z in epoch milliseconds. -/
def dateJun05 : ℚ := 1749081600000

/-- Instant 2025-06-30T00:00:00Z in epoch milliseconds. -/
def dateJun30 : ℚ := 1751241600000

/-- Instant 2025-05-21T00:00:00Z in epoch milliseconds, fifteen days before
2025-06-05. -/
def dateMay21 : ℚ := 1747785600000

/-- Sample users: one holder per hierarchy role, scoped to the state
Uttar Pradesh with branches Education, Health and Tourism. -/
def uPMO : User := { uid := 1, roles := [{ role := "PMO" }] }

/-- Sample CEO NITI user. -/
def uCEO : User := { uid := 2, roles := [{ role := "CEO NITI" }] }

/-- Sample State Advisor for Uttar Pradesh. -/
def uAdv : User :=
  { uid := 3, roles := [{ role := "State Advisor", state := some "Uttar Pradesh" }] }

/-- Sample State YP for Uttar Pradesh. -/
def uYP : User :=
  { uid := 4, roles := [{ role := "State YP", state := some "Uttar Pradesh" }] }

/-- Sample State Division HOD for the Education branch. -/
def uHodEdu : User :=
  { uid := 5
    roles := [{ role := "State Division HOD", state := some "Uttar Pradesh"
                branch := some "Education" }] }

/-- Sample State Division HOD for the Health branch. -/
def uHodHealth : User :=
  { uid := 6
    roles := [{ role := "State Division HOD", state := some "Uttar Pradesh"
                branch := some "Health" }] }

/-- Sample State Division HOD for the Tourism branch. -/
def uHodTourism : User :=
  { uid := 7
    roles := [{ role := "State Division HOD", state := some "Uttar Pradesh"
                branch := some "Tourism" }] }

/-- Sample Division YP for the Education branch. -/
def uDivYP : User :=
  { uid := 8
    roles := [{ role := "Division YP", state := some "Uttar Pradesh"
                branch := some "Education" }] }

/-- A user holding two hierarchy roles at once: PMO and State YP for
Uttar Pradesh.  The highest role wins in `getUserHierarchyRole`. -/
def uMulti : User :=
  { uid := 9
    roles := [{ role := "PMO" }, { role := "State YP", state := some "Uttar Pradesh" }] }

/-- Sample user collection with one holder per hierarchy role. -/
def sampleDb : List User :=
  [uPMO, uCEO, uAdv, uYP, uHodEdu, uHodHealth, uHodTourism, uDivYP]

/-- Sample user collection whose State YP seat is held by the dual role
user `uMulti` and which has no holder of any State Division HOD role. -/
def dbNoHods : List User := [uPMO, uCEO, uAdv, uMulti, uDivYP]

/-- Sample template store with one active template. -/
def sampleTemplates : List Template :=
  [{ state := "Uttar Pradesh", vertical := "Energy", isActive := true }]

/-- A request waiting at State YP that targets the three branches of
Uttar Pradesh, assigned to the State YP holder. -/
def wfFanout : Workflow :=
  { title := "Multi branch data request"
    infoNeed := "Collect division level data for review"
    timeline := 864000000
    createdBy := 3
    status := "in-progress"
    targets :=
      { states := ["Uttar Pradesh"], branches := ["Education", "Health", "Tourism"]
        verticals := ["Energy"] }
    currentAssigneeId := some 4
    currentStage := Role.stateYP
    history := []
    version := 1
    versionHistory := []
    rollbackCount := 0 }

/-- A request waiting at State YP whose rollback counter has reached the
ceiling recorded in its own `maxRollbackCount` field. -/
def wfCeiling : Workflow :=
  { wfFanout with
    targets := { states := ["Uttar Pradesh"], branches := ["Education"], verticals := ["Energy"] }
    rollbackCount := 3
    maxRollbackCount := 3 }

/-- A terminally approved request: the approve path always clears the
assignee when it sets the status to approved. -/
def wfApproved : Workflow :=
  { wfFanout with status := "approved", currentAssigneeId := none }

/-- A request waiting at State YP whose assignee is the dual role user
`uMulti`. -/
def wfAtMulti : Workflow :=
  { wfFanout with
    targets := { states := ["Uttar Pradesh"], branches := ["Education"], verticals := ["Energy"] }
    currentAssigneeId := some 9 }

/-- A request waiting at PMO, assigned to the PMO holder. -/
def wfAtPMO : Workflow :=
  { wfFanout with
    targets := { states := ["Uttar Pradesh"], branches := ["Education"], verticals := ["Energy"] }
    currentAssigneeId := some 1
    currentStage := Role.pmo }

/-- A freshly created request waiting at Division YP for data submission. -/
def wfSubmit : Workflow :=
  { wfFanout with
    targets := { states := ["Uttar Pradesh"], branches := ["Education"], verticals := ["Energy"] }
    currentAssigneeId := some 8
    currentStage := Role.divYP }

/-- Two consecutive submit calls by the Division YP holder. -/
def sampleSubmits : List SubmitCall :=
  [{ now := 0, user := uDivYP, notes := none, data := some "first payload" },
   { now := 0, user := uDivYP, notes := some "revised", data := some "second payload" }]

/-- A draft PM visit for Uttar Pradesh. -/
def visitDraft : PMVisit :=
  { title := "PM Visit to Uttar Pradesh"
    purpose := "Review development projects"
    visitDate := dateJun30
    finalDeadline := dateJun05
    state := "Uttar Pradesh"
    verticals := ["Energy"]
    status := "draft"
    deadlines := []
    createdBy := 1
    auditLog := [] }

/-- A completed PM visit. -/
def visitCompleted : PMVisit := { visitDraft with status := "completed" }

theorem mathMax_eq_left {a b : ℚ} (h : b ≤ a) : mathMax a b = a := by
  unfold mathMax
  split
  next h2 => exact le_antisymm h h2
  next => rfl

theorem deadlineAllocation_of_nonpos {d : ℚ} (hd : d ≤ 0) (r : Role) :
    deadlineAllocation d r = floorDays r := by
  cases r
  case pmo => rfl
  case ceoNiti => exact mathMax_eq_left (by nlinarith)
  case stateAdvisor => exact mathMax_eq_left (by nlinarith)
  case stateYP => exact mathMax_eq_left (by nlinarith)
  case hod => exact mathMax_eq_left (by nlinarith)
  case divYP => exact mathMax_eq_left (by nlinarith)

theorem calculateCascadeDeadlines_of_le {v f : ℚ} (h : f ≤ v) :
    calculateCascadeDeadlines v f =
      [{ role := Role.divYP, deadline := f - 15 * msPerDay, status := "pending" },
       { role := Role.hod, deadline := f - 12 * msPerDay, status := "pending" },
       { role := Role.stateYP, deadline := f - 8 * msPerDay, status := "pending" },
       { role := Role.stateAdvisor, deadline := f - 5 * msPerDay, status := "pending" },
       { role := Role.ceoNiti, deadline := f - 2 * msPerDay, status := "pending" },
       { role := Role.pmo, deadline := f - 0 * msPerDay, status := "pending" }] := by
  have hd : (f - v) / msPerDay ≤ 0 :=
    div_nonpos_iff.mpr (Or.inr ⟨by linarith, by norm_num [msPerDay]⟩)
  simp only [calculateCascadeDeadlines, List.map]
  rw [deadlineAllocation_of_nonpos hd, deadlineAllocation_of_nonpos hd,
      deadlineAllocation_of_nonpos hd, deadlineAllocation_of_nonpos hd,
      deadlineAllocation_of_nonpos hd, deadlineAllocation_of_nonpos hd]
  simp [floorDays]

/-- C5: for every visit date strictly after the final deadline with a span
of at least 20 days, the cascade due instants are monotone from
Division YP up to PMO and the PMO due instant equals the final deadline
exactly.  In the source the signed day difference is nonpositive, so every
allocation resolves to its floor and the floors are strictly ordered. -/
theorem c5_cascade_monotone (visitDate finalDeadline : ℚ)
    (h1 : finalDeadline < visitDate)
    (h2 : 20 * msPerDay ≤ visitDate - finalDeadline) :
    ∃ dDiv dHod dYp dAdv dCeo dPmo,
      cascadeDue visitDate finalDeadline Role.divYP = some dDiv ∧
      cascadeDue visitDate finalDeadline Role.hod = some dHod ∧
      cascadeDue visitDate finalDeadline Role.stateYP = some dYp ∧
      cascadeDue visitDate finalDeadline Role.stateAdvisor = some dAdv ∧
      cascadeDue visitDate finalDeadline Role.ceoNiti = some dCeo ∧
      cascadeDue visitDate finalDeadline Role.pmo = some dPmo ∧
      dDiv ≤ dHod ∧ dHod ≤ dYp ∧ dYp ≤ dAdv ∧ dAdv ≤ dCeo ∧ dCeo ≤ dPmo ∧
      dPmo = finalDeadline := by
  have hlist := calculateCascadeDeadlines_of_le (v := visitDate) (f := finalDeadline)
    (le_of_lt h1)
  refine ⟨finalDeadline - 15 * msPerDay, finalDeadline - 12 * msPerDay,
          finalDeadline - 8 * msPerDay, finalDeadline - 5 * msPerDay,
          finalDeadline - 2 * msPerDay, finalDeadline - 0 * msPerDay,
          ?_, ?_, ?_, ?_, ?_, ?_, ?_, ?_, ?_, ?_, ?_, ?_⟩
  · unfold cascadeDue; rw [hlist]; rfl
  · unfold cascadeDue; rw [hlist]; rfl
  · unfold cascadeDue; rw [hlist]; rfl
  · unfold cascadeDue; rw [hlist]; rfl
  · unfold cascadeDue; rw [hlist]; rfl
  · unfold cascadeDue; rw [hlist]; rfl
  · simp only [msPerDay]; linarith
  · simp only [msPerDay]; linarith
  · simp only [msPerDay]; linarith
  · simp only [msPerDay]; linarith
  · simp only [msPerDay]; linarith
  · norm_num

/-- Witness for C5 at the concrete pair 2025-06-30 and 2025-06-05. -/
theorem c5_cascade_monotone_witness :
    dateJun05 < dateJun30 ∧ 20 * msPerDay ≤ dateJun30 - dateJun05 ∧
    (∃ dDiv dHod dYp dAdv dCeo dPmo,
      cascadeDue dateJun30 dateJun05 Role.divYP = some dDiv ∧
      cascadeDue dateJun30 dateJun05 Role.hod = some dHod ∧
      cascadeDue dateJun30 dateJun05 Role.stateYP = some dYp ∧
      cascadeDue dateJun30 dateJun05 Role.stateAdvisor = some dAdv ∧
      cascadeDue dateJun30 dateJun05 Role.ceoNiti = some dCeo ∧
      cascadeDue dateJun30 dateJun05 Role.pmo = some dPmo ∧
      dDiv ≤ dHod ∧ dHod ≤ dYp ∧ dYp ≤ dAdv ∧ dAdv ≤ dCeo ∧ dCeo ≤ dPmo ∧
      dPmo = dateJun05) :=
  ⟨by norm_num [dateJun05, dateJun30],
   by norm_num [dateJun05, dateJun30, msPerDay],
   c5_cascade_monotone dateJun30 dateJun05 (by norm_num [dateJun05, dateJun30])
     (by norm_num [dateJun05, dateJun30, msPerDay])⟩

/-- C4 (counterexample): at visit date 2025-06-30 and final deadline
2025-06-05 the computed Division YP due instant is not the value
`finalDeadline - max(15, 0.95 * 25) days` stated by the claim, because the
source computes the day difference with negative sign, so the fractional
allocation never exceeds the floor. -/
theorem c4_divyp_due_differs_from_claim :
    cascadeDue dateJun30 dateJun05 Role.divYP ≠
      some (dateJun05 - mathMax 15 (25 * 0.95) * msPerDay) := by
  unfold cascadeDue
  rw [calculateCascadeDeadlines_of_le (by norm_num [dateJun05, dateJun30])]
  show some (dateJun05 - 15 * msPerDay) ≠ _
  norm_num [mathMax, dateJun05, msPerDay]

/-- C4 (amended): at visit date 2025-06-30 and final deadline 2025-06-05
the cascade gives PMO due 2025-06-05 and Division YP due 2025-05-21, that
is `finalDeadline - 15 days`: the source day difference
`(finalDeadline - visitDate) / msPerDay` is -25, so every allocation
`max(floor, dayDiff * fraction)` collapses to its floor. -/
theorem c4_cascade_concrete :
    cascadeDue dateJun30 dateJun05 Role.pmo = some dateJun05 ∧
    cascadeDue dateJun30 dateJun05 Role.divYP = some dateMay21 ∧
    dateMay21 = dateJun05 - 15 * msPerDay := by
  have h := calculateCascadeDeadlines_of_le (v := dateJun30) (f := dateJun05)
    (by norm_num [dateJun05, dateJun30])
  refine ⟨?_, ?_, by norm_num [dateMay21, dateJun05, msPerDay]⟩
  · unfold cascadeDue
    rw [h]
    show some (dateJun05 - 0 * msPerDay) = some dateJun05
    norm_num
  · unfold cascadeDue
    rw [h]
    show some (dateJun05 - 15 * msPerDay) = some dateMay21
    norm_num [dateMay21, dateJun05, msPerDay]

theorem filterMap_map_proj {α β γ δ : Type} (g : α → Option β) (h : α → β → γ) (p : γ → δ)
    (q : α → δ) (hp : ∀ a b, p (h a b) = q a) :
    ∀ (l : List α), (∀ a ∈ l, (g a).isSome) →
      (l.filterMap (fun a => (g a).map (h a))).map p = l.map q := by
  intro l
  induction l with
  | nil => intro _; rfl
  | cons a t ih =>
    intro hl
    obtain ⟨b, hb⟩ := Option.isSome_iff_exists.mp (hl a (List.mem_cons_self a t))
    simp only [List.filterMap_cons, hb, Option.map_some', List.map_cons, hp]
    rw [ih (fun x hx => hl x (List.mem_cons_of_mem a hx))]

theorem filterMap_length_of_isSome {α β γ : Type} (g : α → Option β) (h : α → β → γ)
    (l : List α) (hl : ∀ a ∈ l, (g a).isSome) :
    (l.filterMap (fun a => (g a).map (h a))).length = l.length := by
  have hmap := filterMap_map_proj g h (fun _ => ()) (fun _ => ()) (fun _ _ => rfl) l hl
  calc (l.filterMap (fun a => (g a).map (h a))).length
      = ((l.filterMap (fun a => (g a).map (h a))).map (fun _ => ())).length := by
        rw [List.length_map]
    _ = (l.map (fun _ => ())).length := by rw [hmap]
    _ = l.length := by rw [List.length_map]

theorem mem_filterMap_clone {α β γ : Type} (g : α → Option β) (h : α → β → γ) (l : List α)
    (c : γ) (hc : c ∈ l.filterMap (fun a => (g a).map (h a))) :
    ∃ a, a ∈ l ∧ ∃ b, g a = some b ∧ c = h a b := by
  obtain ⟨a, ha, hab⟩ := List.mem_filterMap.mp hc
  obtain ⟨b, hb, hcb⟩ := Option.map_eq_some'.mp hab
  exact ⟨a, ha, b, hb, hcb.symm⟩

theorem filterMap_length_eq_filter_length {α β γ : Type} (g : α → Option β) (h : α → β → γ) :
    ∀ l : List α, (l.filterMap (fun a => (g a).map (h a))).length =
      (l.filter (fun a => (g a).isSome)).length := by
  intro l
  induction l with
  | nil => rfl
  | cons a t ih =>
    cases hga : g a with
    | none => simp [List.filterMap_cons, List.filter_cons, hga, ih]
    | some b => simp [List.filterMap_cons, List.filter_cons, hga, ih]

/-- C1: an approve by the current assignee whose hierarchy role is State YP
on a request targeting more than one branch creates one clone per target
branch (given that a State Division HOD resolves for every branch), each
clone at stage State Division HOD with the single branch as target, in
progress, at version 1 with rollback count 0 and a history holding exactly
one forwarded entry, while the parent keeps its stage and its in-progress
status and loses its assignee. -/
theorem c1_fanout_clone_per_branch (db : List User) (templates : List Template) (now : ℚ)
    (user : User) (wf : Workflow) (notes data : Option String) (newDeadline : Option ℚ)
    (hassign : wf.currentAssigneeId = some user.uid)
    (hrole : getUserHierarchyRole user = some Role.stateYP)
    (hmulti : 1 < wf.targets.branches.length)
    (hstatus : wf.status = "in-progress")
    (hres : ∀ b ∈ wf.targets.branches,
      (findUserForRole db Role.hod (wf.targets.states.headD "") (some b)).isSome) :
    ∃ updated clones,
      patchWorkflow db templates now user wf "approve" notes data newDeadline =
        PatchResult.ok updated clones ∧
      clones.length = wf.targets.branches.length ∧
      clones.map (fun c => c.targets.branches) = wf.targets.branches.map (fun b => [b]) ∧
      (∀ c ∈ clones, c.currentStage = Role.hod ∧ c.status = "in-progress" ∧
        c.version = 1 ∧ c.rollbackCount = 0 ∧
        ∃ e, c.history = [e] ∧ e.action = "forwarded") ∧
      updated.currentAssigneeId = none ∧
      updated.currentStage = wf.currentStage ∧
      updated.status = "in-progress" := by
  unfold patchWorkflow
  rw [if_neg (not_not_intro hassign), hrole]
  simp only []
  unfold approveCase
  rw [show getNextRole Role.stateYP = some Role.hod from rfl]
  simp only []
  rw [if_pos trivial, if_pos ⟨trivial, hmulti⟩]
  refine ⟨_, _, rfl, ?_, ?_, ?_, ?_, ?_, ?_⟩
  · exact filterMap_length_of_isSome
      (fun b => findUserForRole db Role.hod (wf.targets.states.headD "") (some b))
      (fun b hod => mkFanoutClone wf user Role.stateYP now b hod) wf.targets.branches hres
  · exact filterMap_map_proj
      (fun b => findUserForRole db Role.hod (wf.targets.states.headD "") (some b))
      (fun b hod => mkFanoutClone wf user Role.stateYP now b hod)
      (fun c => c.targets.branches) (fun b => [b]) (fun a b => rfl) wf.targets.branches hres
  · intro c hc
    obtain ⟨a, ha, b, hb, hcb⟩ := mem_filterMap_clone _ _ _ c hc
    subst hcb
    exact ⟨rfl, rfl, rfl, rfl, _, rfl, rfl⟩
  · simp [applyUpdate]
  · simp [applyUpdate]
  · simp [applyUpdate, hstatus]

/-- Witness for C1: the sample request over the branches Education, Health
and Tourism, approved by the State YP holder, against the sample user
collection that resolves a State Division HOD for each branch. -/
theorem c1_fanout_clone_per_branch_witness :
    wfFanout.currentAssigneeId = some uYP.uid ∧
    1 < wfFanout.targets.branches.length ∧
    (∃ updated clones,
      patchWorkflow sampleDb sampleTemplates 0 uYP wfFanout "approve" none none none =
        PatchResult.ok updated clones ∧
      clones.length = wfFanout.targets.branches.length ∧
      clones.map (fun c => c.targets.branches) =
        wfFanout.targets.branches.map (fun b => [b]) ∧
      (∀ c ∈ clones, c.currentStage = Role.hod ∧ c.status = "in-progress" ∧
        c.version = 1 ∧ c.rollbackCount = 0 ∧
        ∃ e, c.history = [e] ∧ e.action = "forwarded") ∧
      updated.currentAssigneeId = none ∧
      updated.currentStage = wfFanout.currentStage ∧
      updated.status = "in-progress") :=
  ⟨rfl, by decide,
   c1_fanout_clone_per_branch sampleDb sampleTemplates 0 uYP wfFanout none none none
     rfl rfl (by decide) rfl (by decide)⟩

/-- C10: a multi branch approve at State YP creates clones only for the
branches whose State Division HOD resolves: the clone count equals the
count of branches with a resolvable HOD (possibly strictly below the
branch count, including zero), every clone comes from a resolvable branch,
no error is reported, and the parent assignee is cleared regardless. -/
theorem c10_fanout_skips_unresolved (db : List User) (templates : List Template) (now : ℚ)
    (user : User) (wf : Workflow) (notes data : Option String) (newDeadline : Option ℚ)
    (hassign : wf.currentAssigneeId = some user.uid)
    (hrole : getUserHierarchyRole user = some Role.stateYP)
    (hmulti : 1 < wf.targets.branches.length) :
    ∃ updated clones,
      patchWorkflow db templates now user wf "approve" notes data newDeadline =
        PatchResult.ok updated clones ∧
      clones.length = (wf.targets.branches.filter (fun b =>
        (findUserForRole db Role.hod (wf.targets.states.headD "") (some b)).isSome)).length ∧
      (∀ c ∈ clones, ∃ b, b ∈ wf.targets.branches ∧ ∃ hod,
        findUserForRole db Role.hod (wf.targets.states.headD "") (some b) = some hod ∧
        c = mkFanoutClone wf user Role.stateYP now b hod) ∧
      updated.currentAssigneeId = none ∧
      updated.currentStage = wf.currentStage ∧
      updated.status = wf.status := by
  unfold patchWorkflow
  rw [if_neg (not_not_intro hassign), hrole]
  simp only []
  unfold approveCase
  rw [show getNextRole Role.stateYP = some Role.hod from rfl]
  simp only []
  rw [if_pos trivial, if_pos ⟨trivial, hmulti⟩]
  refine ⟨_, _, rfl, ?_, ?_, ?_, ?_, ?_⟩
  · exact filterMap_length_eq_filter_length
      (fun b => findUserForRole db Role.hod (wf.targets.states.headD "") (some b))
      (fun b hod => mkFanoutClone wf user Role.stateYP now b hod) wf.targets.branches
  · intro c hc
    exact mem_filterMap_clone _ _ _ c hc
  · simp [applyUpdate]
  · simp [applyUpdate]
  · simp [applyUpdate]

/-- Witness for C10: against a user collection holding no State Division
HOD at all, the fan out approve succeeds, produces zero clones for the
three target branches, and still clears the parent assignee. -/
theorem c10_fanout_skips_unresolved_witness :
    1 < wfFanout.targets.branches.length ∧
    (wfFanout.targets.branches.filter (fun b =>
      (findUserForRole dbNoHods Role.hod (wfFanout.targets.states.headD "")
        (some b)).isSome)).length = 0 ∧
    (∃ updated clones,
      patchWorkflow dbNoHods sampleTemplates 0 uYP wfFanout "approve" none none none =
        PatchResult.ok updated clones ∧
      clones.length = (wfFanout.targets.branches.filter (fun b =>
        (findUserForRole dbNoHods Role.hod (wfFanout.targets.states.headD "")
          (some b)).isSome)).length ∧
      (∀ c ∈ clones, ∃ b, b ∈ wfFanout.targets.branches ∧ ∃ hod,
        findUserForRole dbNoHods Role.hod (wfFanout.targets.states.headD "") (some b) =
          some hod ∧
        c = mkFanoutClone wfFanout uYP Role.stateYP 0 b hod) ∧
      updated.currentAssigneeId = none ∧
      updated.currentStage = wfFanout.currentStage ∧
      updated.status = wfFanout.status) :=
  ⟨by decide, rfl,
   c10_fanout_skips_unresolved dbNoHods sampleTemplates 0 uYP wfFanout none none none
     rfl rfl (by decide)⟩

/-- C2 (code evaluation at the failing input): on a request whose rollback
counter has already reached its own rollback ceiling of 3, a further
reject by the current assignee succeeds and pushes the counter to 4; the
PATCH handler never reads `maxRollbackCount`, so no state conflict error
exists on this path, contradicting both the claim and the protective
intent documented on the schema field. -/
theorem c2_reject_at_ceiling_increments :
    wfCeiling.rollbackCount = wfCeiling.maxRollbackCount ∧
    (patchWorkflow sampleDb sampleTemplates 0 uYP wfCeiling "reject" none none
        none).updatedRollbackCount = some (wfCeiling.maxRollbackCount + 1) :=
  ⟨rfl, rfl⟩

/-- C3 (counterexample): on a terminally approved request the attempted
approve fails with the assignee check error `Not current assignee` with
HTTP status 403, not with any `RequestClosed` error: the PATCH handler has
no terminal status check at all, and the request is only protected because
terminal approval cleared its assignee. -/
theorem c3_terminal_error_is_assignee_check :
    wfApproved.status = "approved" ∧
    patchWorkflow sampleDb sampleTemplates 0 uPMO wfApproved "approve" none none none =
      PatchResult.error "Not current assignee" 403 ∧
    ¬ ∃ code, patchWorkflow sampleDb sampleTemplates 0 uPMO wfApproved "approve" none none none =
        PatchResult.error "RequestClosed" code := by
  refine ⟨rfl, rfl, ?_⟩
  rintro ⟨code, h⟩
  rw [show patchWorkflow sampleDb sampleTemplates 0 uPMO wfApproved "approve" none none none =
    PatchResult.error "Not current assignee" 403 from rfl] at h
  injection h with h1 h2
  exact absurd h1 (by decide)

/-- C3 (amended): on every request in a terminal status, which on every
path of the route implies a cleared assignee, any approve, reject or
submit attempt by any user fails with `Not current assignee` before any
write, so the request is left unchanged; the failure arises from the
assignee check, not from a dedicated `RequestClosed` error. -/
theorem c3_terminal_requests_locked (db : List User) (templates : List Template) (now : ℚ)
    (user : User) (wf : Workflow) (action : String) (notes data : Option String)
    (newDeadline : Option ℚ)
    (hterm : wf.status = "approved" ∨ wf.status = "rejected")
    (hassignee : wf.currentAssigneeId = none) :
    patchWorkflow db templates now user wf action notes data newDeadline =
      PatchResult.error "Not current assignee" 403 := by
  unfold patchWorkflow
  rw [if_pos (by simp [hassignee])]

/-- Witness for C3: the terminally approved sample request rejects a
reject attempt by the CEO NITI holder with the assignee check error. -/
theorem c3_terminal_requests_locked_witness :
    (wfApproved.status = "approved" ∨ wfApproved.status = "rejected") ∧
    wfApproved.currentAssigneeId = none ∧
    patchWorkflow sampleDb sampleTemplates 0 uCEO wfApproved "reject" none none none =
      PatchResult.error "Not current assignee" 403 :=
  ⟨Or.inl rfl, rfl,
   c3_terminal_requests_locked sampleDb sampleTemplates 0 uCEO wfApproved "reject"
     none none none (Or.inl rfl) rfl⟩

/-- C7 (counterexample): the reject path computes the previous role from
the hierarchy role of the acting user, not from the chain position of the
request `currentStage`.  A user holding both PMO and State YP, assigned at
stage State YP, has a previous role at that stage (State Advisor, whose
holder resolves in the sample collection), yet the code rejects the call
with `Cannot reject at this level` because the highest role of the actor
is PMO. -/
theorem c7_prev_role_from_actor_not_stage :
    wfAtMulti.currentAssigneeId = some uMulti.uid ∧
    wfAtMulti.currentStage = Role.stateYP ∧
    getPreviousRole wfAtMulti.currentStage = some Role.stateAdvisor ∧
    (findUserForRole sampleDb Role.stateAdvisor
      (wfAtMulti.targets.states.headD "") wfAtMulti.targets.branches.head?).isSome = true ∧
    patchWorkflow sampleDb sampleTemplates 0 uMulti wfAtMulti "reject" none none none =
      PatchResult.error "Cannot reject at this level" 400 :=
  ⟨rfl, rfl, rfl, rfl, rfl⟩

/-- C7 (amended): for a reject by the current assignee, the previous role
is computed from the chain position of the acting user hierarchy role
(which coincides with `currentStage` whenever the assignee highest role
matches the stage).  When there is no previous role the call fails with
`Cannot reject at this level`; when a previous role exists but no user
resolves for it at the target scope the call fails with
`Previous user not found`; both errors are returned before any write, so
the request is unchanged and never silently terminated. -/
theorem c7_reject_failure_modes (db : List User) (templates : List Template) (now : ℚ)
    (user : User) (wf : Workflow) (notes data : Option String) (newDeadline : Option ℚ)
    (userRole : Role)
    (hassign : wf.currentAssigneeId = some user.uid)
    (hrole : getUserHierarchyRole user = some userRole) :
    (getPreviousRole userRole = none →
      patchWorkflow db templates now user wf "reject" notes data newDeadline =
        PatchResult.error "Cannot reject at this level" 400) ∧
    (∀ prevRole, getPreviousRole userRole = some prevRole →
      findUserForRole db prevRole (wf.targets.states.headD "") wf.targets.branches.head? = none →
      patchWorkflow db templates now user wf "reject" notes data newDeadline =
        PatchResult.error "Previous user not found" 400) := by
  constructor
  · intro hprev
    unfold patchWorkflow
    rw [if_neg (not_not_intro hassign), hrole]
    simp only []
    rw [if_neg (by decide), if_pos trivial]
    unfold rejectCase
    rw [hprev]
  · intro prevRole hprev hfind
    unfold patchWorkflow
    rw [if_neg (not_not_intro hassign), hrole]
    simp only []
    rw [if_neg (by decide), if_pos trivial]
    unfold rejectCase
    rw [hprev]
    simp only [hfind]

/-- Witness for C7: a reject by the PMO holder, who has no previous role
in the chain, fails with `Cannot reject at this level`. -/
theorem c7_reject_failure_modes_witness :
    wfAtPMO.currentAssigneeId = some uPMO.uid ∧
    getUserHierarchyRole uPMO = some Role.pmo ∧
    getPreviousRole Role.pmo = none ∧
    patchWorkflow sampleDb sampleTemplates 0 uPMO wfAtPMO "reject" none none none =
      PatchResult.error "Cannot reject at this level" 400 :=
  ⟨rfl, rfl, rfl,
   (c7_reject_failure_modes sampleDb sampleTemplates 0 uPMO wfAtPMO none none none
     Role.pmo rfl rfl).1 rfl⟩

theorem submit_step_shape (db : List User) (templates : List Template) (now : ℚ) (user : User)
    (wf : Workflow) (notes data : Option String) (wf1 : Workflow) (clones : List Workflow)
    (h : patchWorkflow db templates now user wf "submit" notes data none =
      PatchResult.ok wf1 clones) :
    wf1.version = wf.version + 1 ∧
    ∃ e, wf1.versionHistory = wf.versionHistory ++ [e] ∧ e.version = wf.version + 1 := by
  unfold patchWorkflow at h
  split at h
  · exact absurd h (by simp)
  · split at h
    · exact absurd h (by simp)
    next userRole hrole =>
      rw [if_neg (by decide), if_neg (by decide), if_pos rfl] at h
      unfold submitCase at h
      split at h
      · exact absurd h (by simp)
      · split at h
        · exact absurd h (by simp)
        next d =>
          dsimp only at h
          split at h
          · exact absurd h (by simp)
          next tpl htpl =>
            injection h with h1 h2
            subst h1
            exact ⟨by simp [applyUpdate],
              ⟨wf.version + 1, d, user.uid, now, "submitted", jsOr notes "Initial submission"⟩,
              by simp [applyUpdate], rfl⟩

theorem get_append_one {α : Type} (l : List α) (e : α) (f : α → Nat)
    (hl : ∀ i (hi : i < l.length), f (l.get ⟨i, hi⟩) = i + 2)
    (he : f e = l.length + 2) :
    ∀ i (hi : i < (l ++ [e]).length), f ((l ++ [e]).get ⟨i, hi⟩) = i + 2 := by
  intro i hi
  rcases Nat.lt_or_ge i l.length with hlt | hge
  · rw [List.get_eq_getElem, List.getElem_append_left hlt]
    have := hl i hlt
    rw [List.get_eq_getElem] at this
    exact this
  · have hi2 : i < l.length + 1 := by simpa using hi
    have hieq : i = l.length := by omega
    subst hieq
    rw [List.get_eq_getElem, List.getElem_append_right hge]
    simpa using he

theorem runSubmits_invariant (db : List User) (templates : List Template) :
    ∀ (calls : List SubmitCall) (wf wfn : Workflow),
      wf.version = wf.versionHistory.length + 1 →
      (∀ i (hi : i < wf.versionHistory.length),
        (wf.versionHistory.get ⟨i, hi⟩).version = i + 2) →
      runSubmits db templates wf calls = some wfn →
      wfn.version = wfn.versionHistory.length + 1 ∧
      ∀ i (hi : i < wfn.versionHistory.length),
        (wfn.versionHistory.get ⟨i, hi⟩).version = i + 2 := by
  intro calls
  induction calls with
  | nil =>
    intro wf wfn h1 h2 hrun
    unfold runSubmits at hrun
    injection hrun with h
    subst h
    exact ⟨h1, h2⟩
  | cons c rest ih =>
    intro wf wfn h1 h2 hrun
    unfold runSubmits at hrun
    split at hrun
    next updated clones hpatch =>
      obtain ⟨hv, e, hvh, hev⟩ :=
        submit_step_shape db templates c.now c.user wf c.notes c.data updated clones hpatch
      refine ih updated wfn ?_ ?_ hrun
      · rw [hv, hvh, h1]
        simp
      · rw [hvh]
        refine get_append_one wf.versionHistory e (fun en => en.version) h2 ?_
        show e.version = wf.versionHistory.length + 2
        rw [hev, h1]
    next hpatch => exact absurd hrun (by simp)

/-- C6: every successful submit increments the request version by exactly
one and appends exactly one version history entry carrying the new
version; consequently, running any sequence of successful submits from a
fresh request (version 1, empty version history) yields a version history
whose entry at index `i` has version `i + 2`: strictly increasing with no
gaps. -/
theorem c6_version_monotonic :
    (∀ (db : List User) (templates : List Template) (now : ℚ) (user : User) (wf : Workflow)
        (notes data : Option String) (wf1 : Workflow) (clones : List Workflow),
      patchWorkflow db templates now user wf "submit" notes data none =
        PatchResult.ok wf1 clones →
      wf1.version = wf.version + 1 ∧
      ∃ e, wf1.versionHistory = wf.versionHistory ++ [e] ∧ e.version = wf.version + 1) ∧
    (∀ (db : List User) (templates : List Template) (calls : List SubmitCall)
        (wf0 wfn : Workflow),
      wf0.version = 1 → wf0.versionHistory = [] →
      runSubmits db templates wf0 calls = some wfn →
      ∀ i (hi : i < wfn.versionHistory.length),
        (wfn.versionHistory.get ⟨i, hi⟩).version = i + 2) := by
  constructor
  · intro db templates now user wf notes data wf1 clones h
    exact submit_step_shape db templates now user wf notes data wf1 clones h
  · intro db templates calls wf0 wfn h1 h2 hrun
    exact (runSubmits_invariant db templates calls wf0 wfn (by rw [h1, h2]; rfl)
      (fun i hi => absurd hi (by simp [h2])) hrun).2

/-- Witness for C6: two successful submits on the fresh sample request
give version history entries with versions 2 and 3. -/
theorem c6_version_monotonic_witness :
    wfSubmit.version = 1 ∧ wfSubmit.versionHistory = [] ∧
    ∃ wfn, runSubmits sampleDb sampleTemplates wfSubmit sampleSubmits = some wfn ∧
      ∀ i (hi : i < wfn.versionHistory.length),
        (wfn.versionHistory.get ⟨i, hi⟩).version = i + 2 :=
  ⟨rfl, rfl, _, rfl, fun i hi =>
    c6_version_monotonic.2 sampleDb sampleTemplates sampleSubmits wfSubmit _ rfl rfl rfl i hi⟩

/-- C8: a create by an authorized actor (with a valid body, a future
timeline and an existing linked visit when one is given) originates at the
highest hierarchy role of the actor; when the next lower role resolves to
a user at the first target state and branch, the request starts in
progress at that role with that assignee, otherwise it stays open at the
originating role with no assignee; in every case version is 1, the
rollback counter is 0 and the history holds a single created entry. -/
theorem c8_create_initial_state (db : List User) (visitIds : List Nat) (now : ℚ) (user : User)
    (title infoNeed : String) (timeline : ℚ) (pmVisitId : Option Nat) (targets : Targets)
    (userRole : Role)
    (hauth : requireRoles user ["PMO", "CEO NITI", "State Advisor"] = true)
    (hvalid : 5 ≤ title.length ∧ title.length ≤ 200 ∧ 10 ≤ infoNeed.length ∧
      infoNeed.length ≤ 1000 ∧ 1 ≤ targets.states.length)
    (htime : now < timeline)
    (hvisit : ∀ v ∈ pmVisitId, v ∈ visitIds)
    (hrole : getUserHierarchyRole user = some userRole) :
    ∃ wf, postCreateWorkflow db visitIds now user title infoNeed timeline pmVisitId targets =
        CreateResult.ok wf ∧
      wf.version = 1 ∧ wf.rollbackCount = 0 ∧
      (∃ e, wf.history = [e] ∧ e.action = "created") ∧
      ((∃ nextRole nextUser, getNextRole userRole = some nextRole ∧
          findUserForRole db nextRole (targets.states.headD "") targets.branches.head? =
            some nextUser ∧
          wf.currentStage = nextRole ∧ wf.currentAssigneeId = some nextUser.uid ∧
          wf.status = "in-progress") ∨
        ((getNextRole userRole = none ∨ ∃ nextRole, getNextRole userRole = some nextRole ∧
            findUserForRole db nextRole (targets.states.headD "") targets.branches.head? =
              none) ∧
          wf.currentStage = userRole ∧ wf.currentAssigneeId = none ∧ wf.status = "open")) := by
  unfold postCreateWorkflow
  rw [if_neg (by simp [hauth]), if_neg (not_not_intro hvalid),
      if_neg (not_le.mpr htime), if_neg (not_not_intro hvisit), hrole]
  simp only []
  cases hnext : getNextRole userRole with
  | none =>
    refine ⟨_, rfl, rfl, rfl, ⟨_, rfl, rfl⟩, Or.inr ⟨Or.inl rfl, rfl, rfl, rfl⟩⟩
  | some nextRole =>
    cases hfind : findUserForRole db nextRole (targets.states.headD "") targets.branches.head? with
    | none =>
      simp only [hfind]
      refine ⟨_, rfl, rfl, rfl, ⟨_, rfl, rfl⟩,
        Or.inr ⟨Or.inr ⟨nextRole, rfl, hfind⟩, rfl, rfl, rfl⟩⟩
    | some nextUser =>
      simp only [hfind]
      refine ⟨_, rfl, rfl, rfl, ⟨_, rfl, rfl⟩,
        Or.inl ⟨nextRole, nextUser, rfl, hfind, rfl, rfl, rfl⟩⟩

/-- Witness for C8: the State Advisor holder creates a request for
Uttar Pradesh; the next role State YP resolves, so the request starts in
progress at State YP. -/
theorem c8_create_initial_state_witness :
    requireRoles uAdv ["PMO", "CEO NITI", "State Advisor"] = true ∧
    getUserHierarchyRole uAdv = some Role.stateAdvisor ∧
    (∃ wf, postCreateWorkflow sampleDb [] 0 uAdv "Road audit request"
        "Need division data for the visit" 864000000 none
        { states := ["Uttar Pradesh"], branches := [], domains := [],
          verticals := ["Energy"] } = CreateResult.ok wf ∧
      wf.version = 1 ∧ wf.rollbackCount = 0 ∧
      (∃ e, wf.history = [e] ∧ e.action = "created") ∧
      ((∃ nextRole nextUser, getNextRole Role.stateAdvisor = some nextRole ∧
          findUserForRole sampleDb nextRole
            ((["Uttar Pradesh"] : List String).headD "")
            (([] : List String).head?) = some nextUser ∧
          wf.currentStage = nextRole ∧ wf.currentAssigneeId = some nextUser.uid ∧
          wf.status = "in-progress") ∨
        ((getNextRole Role.stateAdvisor = none ∨
            ∃ nextRole, getNextRole Role.stateAdvisor = some nextRole ∧
            findUserForRole sampleDb nextRole
              ((["Uttar Pradesh"] : List String).headD "")
              (([] : List String).head?) = none) ∧
          wf.currentStage = Role.stateAdvisor ∧ wf.currentAssigneeId = none ∧
          wf.status = "open"))) :=
  ⟨rfl, rfl,
   c8_create_initial_state sampleDb [] 0 uAdv "Road audit request"
     "Need division data for the visit" 864000000 none
     { states := ["Uttar Pradesh"], branches := [], domains := [], verticals := ["Energy"] }
     Role.stateAdvisor rfl (by decide) (by norm_num) (by simp) rfl⟩

/-- C9: a visit activate succeeds exactly when the actor holds PMO and the
visit is a draft, complete succeeds exactly when the actor holds PMO and
the visit is active, and cancel on a completed visit always fails with
`Cannot cancel completed visits`; every failed transition returns an error
before any write, leaving the visit unchanged. -/
theorem c9_visit_transition_guards (user : User) (now : ℚ) (visit : PMVisit)
    (notes : Option String) :
    ((∃ v1, visitPatch user now visit "activate" notes = VisitPatchResult.ok v1) ↔
      ((user.roles.map (fun r => r.role)).contains "PMO" = true ∧ visit.status = "draft")) ∧
    ((∃ v1, visitPatch user now visit "complete" notes = VisitPatchResult.ok v1) ↔
      ((user.roles.map (fun r => r.role)).contains "PMO" = true ∧ visit.status = "active")) ∧
    (visit.status = "completed" →
      visitPatch user now visit "cancel" notes =
        VisitPatchResult.error "Cannot cancel completed visits" 400) := by
  refine ⟨?_, ?_, ?_⟩
  · constructor
    · rintro ⟨v1, hok⟩
      unfold visitPatch at hok
      dsimp only at hok
      by_cases hc : (user.roles.map (fun r => r.role)).contains "PMO" = true
      · by_cases hs : visit.status = "draft"
        · exact ⟨hc, hs⟩
        · rw [if_neg (fun h => h.2 hc), if_neg (fun h => absurd h.1 (by decide)),
              if_pos rfl, if_pos hs] at hok
          exact absurd hok (by simp)
      · rw [if_pos ⟨rfl, hc⟩] at hok
        exact absurd hok (by simp)
    · rintro ⟨hc, hs⟩
      unfold visitPatch
      dsimp only
      rw [if_neg (fun h => h.2 hc), if_neg (fun h => absurd h.1 (by decide)),
          if_pos rfl, if_neg (not_not_intro hs)]
      exact ⟨_, rfl⟩
  · constructor
    · rintro ⟨v1, hok⟩
      unfold visitPatch at hok
      dsimp only at hok
      by_cases hc : (user.roles.map (fun r => r.role)).contains "PMO" = true
      · by_cases hs : visit.status = "active"
        · exact ⟨hc, hs⟩
        · rw [if_neg (fun h => absurd h.1 (by decide)), if_neg (fun h => h.2 hc),
              if_neg (by decide), if_pos rfl, if_pos hs] at hok
          exact absurd hok (by simp)
      · rw [if_neg (fun h => absurd h.1 (by decide)), if_pos ⟨rfl, hc⟩] at hok
        exact absurd hok (by simp)
    · rintro ⟨hc, hs⟩
      unfold visitPatch
      dsimp only
      rw [if_neg (fun h => absurd h.1 (by decide)), if_neg (fun h => h.2 hc),
          if_neg (by decide), if_pos rfl, if_neg (not_not_intro hs)]
      exact ⟨_, rfl⟩
  · intro hs
    unfold visitPatch
    dsimp only
    rw [if_neg (fun h => absurd h.1 (by decide)), if_neg (fun h => absurd h.1 (by decide)),
        if_neg (by decide), if_neg (by decide), if_pos rfl, if_pos hs]

/-- Witness for C9: the PMO holder activates the draft sample visit, and a
cancel on the completed sample visit fails. -/
theorem c9_visit_transition_guards_witness :
    (∃ v1, visitPatch uPMO 0 visitDraft "activate" none = VisitPatchResult.ok v1) ∧
    visitPatch uPMO 0 visitCompleted "cancel" none =
      VisitPatchResult.error "Cannot cancel completed visits" 400 :=
  ⟨(c9_visit_transition_guards uPMO 0 visitDraft none).1.mpr ⟨rfl, rfl⟩,
   (c9_visit_transition_guards uPMO 0 visitCompleted none).2.2 rfl⟩
